import Mathlib

/-!
# Verification of the account storage and update validation of `mon`

A shallow embedding of

* `internal/model/account.go` (`UpdateAccount`),
* `pkg/storage/postgres/account.go` (the accounts queries and row mapping),
* `client/client.go` (`getBodyFromEndpoint`, `processRequestForBody`),
* `cmd/monserve/main.go` (`newServer`, `cmdDBServe`).

Go's `(value, error)` result pairs are kept as pairs of options, because the
code can and sometimes does return both a value and an error. A Go `error` is
identified with its message.
-/

set_option autoImplicit false

namespace Mon

/-! ## Errors -/

/-- A non-nil Go `error`, identified with the text of `err.Error()`. A possibly
nil `error` is an `Option Error`. -/
abbrev Error := String

/-- `errors.New(msg)`. -/
def errorsNew (msg : String) : Option Error := some msg

/-- `errors.Wrap(err, msg)` of `github.com/pkg/errors`: nil stays nil, any other
error gets `msg` and a colon put in front of its message. -/
def errorsWrap (err : Option Error) (msg : String) : Option Error :=
  match err with
  | none => none
  | some e => some (msg ++ ": " ++ e)

/-- `strings.Contains(s, sub)` on the characters of the two strings. -/
def Contains (s sub : String) : Prop := sub.data <:+: s.data

instance (s sub : String) : Decidable (Contains s sub) := by
  unfold Contains; infer_instance

/-! ## Data model -/

/-- A `time.Time` instant, as a count of time units since some epoch. -/
abbrev Time := Int

/-- The `account.Account` value: name, opening time, optional closing time
(a `NullTime`) and currency code (a `currency.Code`, which is a string type). -/
structure Account where
  Name : String
  Opened : Time
  Closed : Option Time
  CurrencyCode : String
  deriving DecidableEq, Repr

/-- The `balance.Balance` value: a timestamped amount in some currency. -/
structure Balance where
  Date : Time
  Amount : Int
  Currency : String
  deriving DecidableEq, Repr

/-- The `storage.Account`: an account with its identifier and the optional time
of its deletion. -/
structure StorageAccount where
  ID : Nat
  Account : Account
  DeletedAt : Option Time
  deriving DecidableEq, Repr

/-- The `storage.Balance`: a balance with its identifier. -/
structure StorageBalance where
  ID : Nat
  Balance : Balance
  deriving DecidableEq, Repr

/-- The `storage.Accounts` slice. -/
abbrev Accounts := List StorageAccount

/-- The `storage.Balances` slice. -/
abbrev Balances := List StorageBalance

/-- The functions of the accounting libraries that the repository calls. They
live in other modules (`go-money/currency`, `go-accounting/account`) and in
`pkg/storage`, so the code is verified for every behaviour they may have. -/
structure Lib where
  /-- `currency.NewCode(code)`. -/
  NewCode : String → Except Error String
  /-- `account.New(name, code, opened)`. -/
  New : String → String → Time → Except Error Account
  /-- `account.CloseTime(t)(a)`. -/
  CloseTime : Time → Account → Except Error Account
  /-- `storage.DeletedAt(t)(a)`. -/
  DeletedAt : Time → StorageAccount → Except Error StorageAccount
  /-- `a.ValidateBalance(b)`: nil when the balance is sound for the account. -/
  ValidateBalance : Account → Balance → Option Error

/-- Modelled from the spec: the validation done by the accounting libraries,
which are not part of this repository. A currency code has exactly three
characters and is in the recognised set; an account has a non-empty name and is
not closed before it was opened; a balance must carry the account's currency and
be dated inside the account's open range. -/
def specLib (recognised : String → Bool) : Lib where
  NewCode code :=
    if code.length = 3 ∧ recognised code = true then .ok code
    else .error "invalid currency code"
  New name code opened :=
    if name = "" then .error "empty name"
    else .ok { Name := name, Opened := opened, Closed := none, CurrencyCode := code }
  CloseTime t a :=
    if t < a.Opened then .error "close time is before open time"
    else .ok { a with Closed := some t }
  DeletedAt t a := .ok { a with DeletedAt := some t }
  ValidateBalance a b :=
    if b.Currency ≠ a.CurrencyCode then some "balance currency does not match account currency"
    else if b.Date < a.Opened then some "balance date is before account open date"
    else match a.Closed with
      | some c => if c < b.Date then some "balance date is after account close date" else none
      | none => none

/-! ## `internal/model`: update validation -/

/-- The two operations of `storage.Storage` that `model.UpdateAccount` calls, as
transitions of an arbitrary storage state. Each returns Go's result pair and the
state it leaves behind. -/
structure Storage (σ : Type) where
  SelectAccountBalances : σ → StorageAccount → (Option Balances × Option Error) × σ
  UpdateAccount : σ → Nat → Account → (Option StorageAccount × Option Error) × σ

/-- A call made on the storage. -/
inductive Call where
  | selectAccountBalances (a : StorageAccount)
  | updateAccount (id : Nat) (updates : Account)
  deriving DecidableEq, Repr

/-- What one run of `model.UpdateAccount` produces: the returned pair, the
storage state afterwards and the storage calls made, in order. -/
structure Outcome (σ : Type) where
  account : Option StorageAccount
  err : Option Error
  state : σ
  calls : List Call

/-- The loop `for _, b := range *bs` of `model.UpdateAccount`: the error of the
first balance that the proposed account rejects. -/
def validateBalances (lib : Lib) (updates : Account) : Balances → Option Error
  | [] => none
  | b :: bs =>
    match lib.ValidateBalance updates b.Balance with
    | some e => some ("update would make balance invalid: " ++ e)
    | none => validateBalances lib updates bs

/-- `model.UpdateAccount(s, a, updates)`. -/
def UpdateAccount {σ : Type} (lib : Lib) (s : Storage σ) (st : σ) (a : StorageAccount)
    (updates : Account) : Outcome σ :=
  let sel := s.SelectAccountBalances st a
  let bs := sel.1.1
  let err := sel.1.2
  let st1 := sel.2
  if err ≠ none then
    { account := none
      err := errorsWrap err "selecting Account Balances for update validation"
      state := st1
      calls := [.selectAccountBalances a] }
  else
    match (match bs with
           | some l => validateBalances lib updates l
           | none => none) with
    | some e =>
      { account := none, err := some e, state := st1, calls := [.selectAccountBalances a] }
    | none =>
      let upd := s.UpdateAccount st1 a.ID updates
      { account := upd.1.1
        err := errorsWrap upd.1.2 "updating account"
        state := upd.2
        calls := [.selectAccountBalances a, .updateAccount a.ID updates] }

/-- A storage held in memory, used to run the model on concrete data: the state
is the stored accounts and the balances with the identifier of their account. -/
def memStorage : Storage (List StorageAccount × List (Nat × StorageBalance)) where
  SelectAccountBalances st a :=
    ((some ((st.2.filter (fun p => p.1 == a.ID)).map Prod.snd), none), st)
  UpdateAccount st id updates :=
    match st.1.find? (fun x => x.ID == id) with
    | none => ((none, some "query returned no accounts"), st)
    | some x =>
      let y : StorageAccount := { x with Account := updates }
      ((some y, none), (st.1.map (fun z => if z.ID == id then y else z), st.2))

/-! ## `pkg/storage/postgres`: the accounts table -/

/-- The columns that `rows.Scan(&id, &name, &opened, &closed, &code, &deleted)`
reads, in the order of `accountsFieldsSelect`; a row of the `accounts` table. -/
structure Row where
  id : Nat
  name : String
  opened : Time
  closed : Option Time
  currency : String
  deleted : Option Time
  deriving DecidableEq, Repr

/-- An `*sql.Rows` cursor: the rows that `rows.Next()` yields, each with the
outcome of its `rows.Scan`, and the value of `rows.Err()` once `Next` has
returned false. -/
structure Rows where
  items : List (Except Error Row)
  err : Option Error

/-- An `sql.Result`, of which only `RowsAffected()` is used. -/
structure Result where
  RowsAffected : Except Error Int

/-- The statements the package sends through `db.Query`, each with the values
bound to its placeholders.
* `querySelectAccounts`:
  `SELECT id, name, opened, closed, currency, deleted FROM accounts WHERE deleted IS NULL ORDER BY id ASC;`
* `querySelectAccount`: `SELECT ... FROM accounts WHERE deleted IS NULL AND id = $1;`
* `queryInsertAccount`:
  `INSERT INTO accounts (name, opened, closed, currency) VALUES ($1, $2, $3, $4) returning ...`
* `queryUpdateAccount`:
  `UPDATE accounts SET name = $1, opened = $2, closed = $3, currency = $4 WHERE id = $5 returning ...` -/
inductive QueryStmt where
  | querySelectAccounts
  | querySelectAccount (id : Nat)
  | queryInsertAccount (name : String) (opened : Time) (closed : Option Time) (code : String)
  | queryUpdateAccount (name : String) (opened : Time) (closed : Option Time) (code : String)
      (id : Nat)
  deriving DecidableEq, Repr

/-- The statement the package sends through `db.Exec`:
`queryDeleteAccount`, `UPDATE accounts SET deleted = $1 WHERE id = $2`. -/
inductive ExecStmt where
  | queryDeleteAccount (deleted : Time) (id : Nat)
  deriving DecidableEq, Repr

/-- The `*sql.DB` handle, as transitions of an arbitrary store state. -/
structure SqlDB (σ : Type) where
  Query : σ → QueryStmt → Except Error Rows × σ
  Exec : σ → ExecStmt → Except Error Result × σ

/-- The body of the loop of `scanRowsForAccounts`: one row, scanned and mapped
to a `storage.Account`. -/
def scanRow (lib : Lib) (item : Except Error Row) : Except Error StorageAccount :=
  match item with
  | .error e => .error ("scanning row: " ++ e)
  | .ok r =>
    match lib.NewCode r.currency with
    | .error e => .error ("generating new currency code: " ++ e)
    | .ok c =>
      match lib.New r.name c r.opened with
      | .error e => .error ("creating new inner account: " ++ e)
      | .ok innerAccount =>
        match (match r.closed with
               | some t =>
                 match lib.CloseTime t innerAccount with
                 | .error e => Except.error ("applying closed time to inner account: " ++ e)
                 | .ok x => Except.ok x
               | none => Except.ok innerAccount) with
        | .error e => .error e
        | .ok innerAccount =>
          let a : StorageAccount := { ID := r.id, Account := innerAccount, DeletedAt := none }
          match r.deleted with
          | some t =>
            match lib.DeletedAt t a with
            | .error e => .error ("applying deleted time to inner account: " ++ e)
            | .ok x => .ok x
          | none => .ok a

/-- The loop `for rows.Next() { ... }` of `scanRowsForAccounts`, with
`openAccounts` as the accumulator; an error leaves the loop at once. -/
def scanLoop (lib : Lib) : List (Except Error Row) → Accounts → Except Error Accounts
  | [], openAccounts => .ok openAccounts
  | item :: items, openAccounts =>
    match scanRow lib item with
    | .error e => .error e
    | .ok a => scanLoop lib items (openAccounts ++ [a])

/-- `scanRowsForAccounts(rows)`: every error inside the loop returns
`nil, err`; after the loop the code returns `&openAccounts, rows.Err()`. -/
def scanRowsForAccounts (lib : Lib) (rows : Rows) : Option Accounts × Option Error :=
  match scanLoop lib rows.items [] with
  | .error e => (none, some e)
  | .ok openAccounts => (some openAccounts, rows.err)

/-- `queryAccounts(db, queryString, values...)`. -/
def queryAccounts {σ : Type} (lib : Lib) (db : SqlDB σ) (st : σ) (q : QueryStmt) :
    (Option Accounts × Option Error) × σ :=
  let res := db.Query st q
  match res.1 with
  | .error e => ((none, some e), res.2)
  | .ok rows => (scanRowsForAccounts lib rows, res.2)

/-- The part of `queryAccount` after `queryAccounts` has returned `as, err`. -/
def queryAccountOf (r : Option Accounts × Option Error) : Option StorageAccount × Option Error :=
  if r.2 ≠ none then (none, errorsWrap r.2 "querying accounts")
  else
    -- `queryAccounts` returns a non-nil pointer whenever the error is nil
    let as := r.1.getD []
    let resLen := as.length
    if resLen = 0 then (none, errorsNew "query returned no accounts")
    else if resLen > 1 then
      (none, some ("expected 1 account but query returned " ++ toString resLen))
    else (as.head?, none)

/-- `queryAccount(db, queryString, values...)`. -/
def queryAccount {σ : Type} (lib : Lib) (db : SqlDB σ) (st : σ) (q : QueryStmt) :
    (Option StorageAccount × Option Error) × σ :=
  let res := queryAccounts lib db st q
  (queryAccountOf res.1, res.2)

/-- `pg.SelectAccounts()`. -/
def SelectAccounts {σ : Type} (lib : Lib) (db : SqlDB σ) (st : σ) :
    (Option Accounts × Option Error) × σ :=
  queryAccounts lib db st .querySelectAccounts

/-- `pg.SelectAccount(id)`. -/
def SelectAccount {σ : Type} (lib : Lib) (db : SqlDB σ) (st : σ) (id : Nat) :
    (Option StorageAccount × Option Error) × σ :=
  let res := queryAccount lib db st (.querySelectAccount id)
  ((res.1.1, errorsWrap res.1.2 "querying Account"), res.2)

/-- `pg.InsertAccount(a)`. -/
def InsertAccount {σ : Type} (lib : Lib) (db : SqlDB σ) (st : σ) (a : Account) :
    (Option StorageAccount × Option Error) × σ :=
  let res := queryAccount lib db st
    (.queryInsertAccount a.Name a.Opened a.Closed a.CurrencyCode)
  ((res.1.1, errorsWrap res.1.2 "querying Account"), res.2)

/-- `pg.UpdateAccount(id, updates)`, named after its package to keep it apart
from `model.UpdateAccount`. -/
def pgUpdateAccount {σ : Type} (lib : Lib) (db : SqlDB σ) (st : σ) (id : Nat)
    (updates : Account) : (Option StorageAccount × Option Error) × σ :=
  queryAccount lib db st
    (.queryUpdateAccount updates.Name updates.Opened updates.Closed updates.CurrencyCode id)

/-- `pg.DeleteAccount(id)`, with `now` the value of `time.Now()`. The result is
the returned `error`. -/
def DeleteAccount {σ : Type} (db : SqlDB σ) (st : σ) (now : Time) (id : Nat) :
    Option Error × σ :=
  let res := db.Exec st (.queryDeleteAccount now id)
  match res.1 with
  | .error e => (errorsWrap (some e) "executing query", res.2)
  | .ok r =>
    match r.RowsAffected with
    | .error e => (errorsWrap (some e) "getting number of rows affected ", res.2)
    | .ok n =>
      if n ≠ 1 then (some ("expected 1 affected row but got " ++ toString n), res.2)
      else (none, res.2)

/-! ### The relational store -/

/-- The `accounts` table and the next value of the sequence behind its `id`
column. -/
structure Table where
  rows : List Row
  nextID : Nat
  deriving DecidableEq, Repr

/-- Insertion of a row into a list ordered by ascending `id`. -/
def insertByID (r : Row) : List Row → List Row
  | [] => [r]
  | x :: xs => if r.id ≤ x.id then r :: x :: xs else x :: insertByID r xs

/-- The clause `ORDER BY id ASC`. -/
def orderByID : List Row → List Row
  | [] => []
  | x :: xs => insertByID x (orderByID xs)

/-- The effect of `UPDATE accounts SET deleted = $1 WHERE id = $2` on one row. -/
def markDeleted (deleted : Time) (id : Nat) (r : Row) : Row :=
  if r.id = id then { r with deleted := some deleted } else r

/-- The effect of `UPDATE accounts SET name = $1, opened = $2, closed = $3,
currency = $4 WHERE id = $5` on one row. -/
def setColumns (name : String) (opened : Time) (closed : Option Time) (code : String)
    (id : Nat) (r : Row) : Row :=
  if r.id = id then
    { r with name := name, opened := opened, closed := closed, currency := code }
  else r

/-- Modelled from the spec: the relational store executing the statements of the
package, which is the database server and the schema and not code under
`src/`. Reads filter and order as the statement text says, an insert stores the
given columns under a fresh identifier with no deleted timestamp, the updates
rewrite the named columns of the rows whose `id` matches, and the cursor never
fails. -/
def tableDB : SqlDB Table where
  Query t q :=
    match q with
    | .querySelectAccounts =>
      (.ok { items := (orderByID (t.rows.filter (fun r => r.deleted.isNone))).map Except.ok
             err := none }, t)
    | .querySelectAccount id =>
      (.ok { items := (t.rows.filter (fun r => r.deleted.isNone && r.id == id)).map Except.ok
             err := none }, t)
    | .queryInsertAccount name opened closed code =>
      let r : Row := { id := t.nextID, name := name, opened := opened, closed := closed,
                       currency := code, deleted := none }
      (.ok { items := [.ok r], err := none },
       { rows := t.rows ++ [r], nextID := t.nextID + 1 })
    | .queryUpdateAccount name opened closed code id =>
      (.ok { items := ((t.rows.filter (fun r => r.id == id)).map
                        (setColumns name opened closed code id)).map Except.ok
             err := none },
       { rows := t.rows.map (setColumns name opened closed code id), nextID := t.nextID })
  Exec t q :=
    match q with
    | .queryDeleteAccount deleted id =>
      (.ok { RowsAffected := .ok ((t.rows.filter (fun r => r.id == id)).length : Int) },
       { rows := t.rows.map (markDeleted deleted id), nextID := t.nextID })

/-- The row that stores an account under an identifier. -/
def rowOf (id : Nat) (a : Account) (deleted : Option Time) : Row :=
  { id := id, name := a.Name, opened := a.Opened, closed := a.Closed,
    currency := a.CurrencyCode, deleted := deleted }

/-- The library rebuilds the account from its own columns: `currency.NewCode`
accepts its code, `account.New` accepts its name and opening time, and
`account.CloseTime` accepts its closing time if it has one. This is what makes
an account value valid for the libraries. -/
def Rebuilds (lib : Lib) (a : Account) : Prop :=
  lib.NewCode a.CurrencyCode = .ok a.CurrencyCode ∧
  lib.New a.Name a.CurrencyCode a.Opened = .ok { a with Closed := none } ∧
  ∀ t, a.Closed = some t → lib.CloseTime t { a with Closed := none } = .ok a

/-- The sequence behind `id` is ahead of every identifier in the table, so the
identifiers it hands out are fresh. -/
def Table.Fresh (t : Table) : Prop := ∀ r ∈ t.rows, r.id < t.nextID

/-! ## `client`: reading a response body -/

/-- The parts of an `*http.Response` that `processRequestForBody` reads: the
status code, the status text, and what `ioutil.ReadAll(res.Body)` returns (the
bytes read, and an error if reading stopped early). -/
structure Response where
  StatusCode : Int
  Status : String
  Body : List Nat × Option Error

/-- `http.StatusOK`. -/
def StatusOK : Int := 200

/-- `processRequestForBody(res)`. The deferred function assigns to the local
`err` after the return values have been evaluated, so it does not change what is
returned. -/
def processRequestForBody (res : Response) : Option (List Nat) × Option Error :=
  if res.StatusCode ≠ StatusOK then
    (none, some ("server returned unexpected code " ++ toString res.StatusCode ++
      " (" ++ res.Status ++ ")"))
  else
    (some res.Body.1, errorsWrap res.Body.2 "reading response body")

/-- `c.getBodyFromEndpoint(e)`, with `get` the outcome of `c.getFromEndpoint(e)`,
that is of `http.Get(string(c) + e)`. -/
def getBodyFromEndpoint (get : Except Error Response) : Option (List Nat) × Option Error :=
  match get with
  | .error e => (none, errorsWrap (some e) "getting from endpoint")
  | .ok res => processRequestForBody res

/-! ## `cmd/monserve`: starting the server -/

/-- The server that a `func(string, http.Handler) error` starts when called
with an address: `http.ListenAndServe` or `http.ListenAndServeTLS` with a
certificate and a key path. -/
inductive Server where
  | ListenAndServe (addr : String)
  | ListenAndServeTLS (addr certPath keyPath : String)
  deriving DecidableEq, Repr

/-- `newServer(certPath, keyPath)`. -/
def newServer (certPath keyPath : String) : String → Server :=
  if certPath.length = 0 ∧ keyPath.length = 0 then
    fun addr => .ListenAndServe addr
  else
    fun addr => .ListenAndServeTLS addr certPath keyPath

/-- The settings of the command, as `viper.GetString` returns them for the keys
`port`, `ssl-certificate`, `ssl-key` and the database keys. -/
structure Config where
  port : String
  sslCertificate : String
  sslKey : String
  dbHost : String
  dbUser : String
  dbPassword : String
  dbName : String
  dbSSLMode : String
  deriving DecidableEq, Repr

/-- The `RunE` function of `cmdDBServe`. `newStorage` and `routerNew` stand for
`newStorage(...)` and `router.New(store)`; the result is the error returned
before a server is started, or the server that is started. -/
def cmdDBServe {S H : Type} (newStorage : String → String → String → String → String →
    Except Error S) (routerNew : S → Except Error H) (cfg : Config) : Except Error Server :=
  match newStorage cfg.dbHost cfg.dbUser cfg.dbPassword cfg.dbName cfg.dbSSLMode with
  | .error e => .error ("error creating storage: " ++ e)
  | .ok store =>
    match routerNew store with
    | .error e => .error ("error creating new server: " ++ e)
    | .ok _ =>
      let serve := newServer "" ""
      .ok (serve (":" ++ cfg.port))

/-! ### Helper lemmas -/

theorem errorsWrap_eq_none (err : Option Error) (msg : String) :
    errorsWrap err msg = none ↔ err = none := by
  cases err <;> simp [errorsWrap]

theorem validateBalances_eq_none (lib : Lib) (updates : Account) (bs : Balances) :
    validateBalances lib updates bs = none ↔
      ∀ b ∈ bs, lib.ValidateBalance updates b.Balance = none := by
  induction bs with
  | nil => simp [validateBalances]
  | cons b bs ih =>
    cases h : lib.ValidateBalance updates b.Balance <;> simp [validateBalances, h, ih]

theorem errorsWrap_some (e : Error) (msg : String) :
    errorsWrap (some e) msg = some (msg ++ ": " ++ e) := rfl

theorem contains_append_right (sub rest : String) : Contains (sub ++ rest) sub := by
  unfold Contains
  rw [String.data_append]
  exact (List.prefix_append _ _).isInfix

theorem contains_append_assoc (sub mid rest : String) : Contains (sub ++ mid ++ rest) sub := by
  rw [String.append_assoc]
  exact contains_append_right _ _

/-- A rejected balance in the list makes the validation loop report an error. -/
theorem validateBalances_ne_none (lib : Lib) (updates : Account) (bs : Balances)
    (b : StorageBalance) (hb : b ∈ bs) (hrej : lib.ValidateBalance updates b.Balance ≠ none) :
    validateBalances lib updates bs ≠ none := by
  intro h
  exact hrej ((validateBalances_eq_none lib updates bs).1 h b hb)

/-- The error of the validation loop names the condition that the library
reported for the first rejected balance. -/
theorem validateBalances_message (lib : Lib) (updates : Account) (bs : Balances) (e : Error)
    (h : validateBalances lib updates bs = some e) :
    ∃ b ∈ bs, ∃ e0, lib.ValidateBalance updates b.Balance = some e0 ∧
      e = "update would make balance invalid: " ++ e0 := by
  induction bs with
  | nil => simp [validateBalances] at h
  | cons b bs ih =>
    cases hv : lib.ValidateBalance updates b.Balance with
    | some e0 =>
      simp only [validateBalances, hv, Option.some.injEq] at h
      exact ⟨b, List.mem_cons_self _ _, e0, hv, h.symm⟩
    | none =>
      simp only [validateBalances, hv] at h
      obtain ⟨b1, hb1, e0, h1, h2⟩ := ih h
      exact ⟨b1, List.mem_cons_of_mem _ hb1, e0, h1, h2⟩

/-! ## `internal/model`: theorems -/

/-- C1: if a balance returned by `SelectAccountBalances(a)` is rejected by
`updates.ValidateBalance`, then `model.UpdateAccount` returns an error and no
stored account, the only storage call made is the read of the balances (the
storage's `UpdateAccount` is not invoked), and the storage is left in the state
the read left it in. The rejection is that of the proposed account `updates`;
the fields stored for `a` play no part. -/
theorem UpdateAccount_rejected_balance_blocks_write {σ : Type} (lib : Lib) (s : Storage σ)
    (st : σ) (a : StorageAccount) (updates : Account) (bs : Balances) (b : StorageBalance)
    (hsel : (s.SelectAccountBalances st a).1.1 = some bs) (hb : b ∈ bs)
    (hrej : lib.ValidateBalance updates b.Balance ≠ none) :
    (UpdateAccount lib s st a updates).err ≠ none ∧
    (UpdateAccount lib s st a updates).account = none ∧
    (UpdateAccount lib s st a updates).calls = [Call.selectAccountBalances a] ∧
    (∀ id u, Call.updateAccount id u ∉ (UpdateAccount lib s st a updates).calls) ∧
    (UpdateAccount lib s st a updates).state = (s.SelectAccountBalances st a).2 := by
  have hv := validateBalances_ne_none lib updates bs b hb hrej
  unfold UpdateAccount
  by_cases herr : (s.SelectAccountBalances st a).1.2 = none
  · obtain ⟨e, he⟩ := Option.ne_none_iff_exists'.1 hv
    simp [herr, hsel, he]
  · obtain ⟨e, he⟩ := Option.ne_none_iff_exists'.1 herr
    simp [he, errorsWrap]

/-- P4 of the specification, run on the in-memory storage: account 1 in USD with
one USD balance, and an update that proposes EUR. The stored account accepts the
balance, the proposed one does not, and nothing is written. -/
theorem UpdateAccount_rejected_balance_blocks_write_witness :
    (specLib (fun _ => true)).ValidateBalance
        { Name := "A", Opened := 20200101, Closed := none, CurrencyCode := "USD" }
        { Date := 20200601, Amount := 100, Currency := "USD" } = none ∧
    (UpdateAccount (specLib (fun _ => true)) memStorage
        ([{ ID := 1, Account := { Name := "A", Opened := 20200101, Closed := none,
                                  CurrencyCode := "USD" }, DeletedAt := none }],
         [(1, { ID := 7, Balance := { Date := 20200601, Amount := 100, Currency := "USD" } })])
        { ID := 1, Account := { Name := "A", Opened := 20200101, Closed := none,
                                CurrencyCode := "USD" }, DeletedAt := none }
        { Name := "A", Opened := 20200101, Closed := none, CurrencyCode := "EUR" }).state =
      ([{ ID := 1, Account := { Name := "A", Opened := 20200101, Closed := none,
                                CurrencyCode := "USD" }, DeletedAt := none }],
       [(1, { ID := 7, Balance := { Date := 20200601, Amount := 100, Currency := "USD" } })]) := by
  refine ⟨by decide, ?_⟩
  exact (UpdateAccount_rejected_balance_blocks_write (specLib (fun _ => true)) memStorage
    ([{ ID := 1, Account := { Name := "A", Opened := 20200101, Closed := none,
                              CurrencyCode := "USD" }, DeletedAt := none }],
     [(1, { ID := 7, Balance := { Date := 20200601, Amount := 100, Currency := "USD" } })])
    { ID := 1, Account := { Name := "A", Opened := 20200101, Closed := none,
                            CurrencyCode := "USD" }, DeletedAt := none }
    { Name := "A", Opened := 20200101, Closed := none, CurrencyCode := "EUR" }
    [{ ID := 7, Balance := { Date := 20200601, Amount := 100, Currency := "USD" } }]
    { ID := 7, Balance := { Date := 20200601, Amount := 100, Currency := "USD" } }
    (by decide) (by decide) (by decide)).2.2.2.2

/-- C2: if `SelectAccountBalances(a)` returns no error and every balance it
returns is accepted by `updates.ValidateBalance` (an absent list has no
balances), then `model.UpdateAccount` makes exactly one `UpdateAccount` call on
the storage, with `a.ID` and `updates`, after the read; it returns the stored
account of that call unchanged, and its error is nil exactly when the error of
that call is nil. -/
theorem UpdateAccount_valid_balances_delegate {σ : Type} (lib : Lib) (s : Storage σ)
    (st : σ) (a : StorageAccount) (updates : Account)
    (hsel : (s.SelectAccountBalances st a).1.2 = none)
    (hok : ∀ bs, (s.SelectAccountBalances st a).1.1 = some bs →
      ∀ b ∈ bs, lib.ValidateBalance updates b.Balance = none) :
    (UpdateAccount lib s st a updates).calls =
      [Call.selectAccountBalances a, Call.updateAccount a.ID updates] ∧
    (UpdateAccount lib s st a updates).account =
      (s.UpdateAccount (s.SelectAccountBalances st a).2 a.ID updates).1.1 ∧
    ((UpdateAccount lib s st a updates).err = none ↔
      (s.UpdateAccount (s.SelectAccountBalances st a).2 a.ID updates).1.2 = none) ∧
    (UpdateAccount lib s st a updates).state =
      (s.UpdateAccount (s.SelectAccountBalances st a).2 a.ID updates).2 := by
  have hv : (match (s.SelectAccountBalances st a).1.1 with
             | some l => validateBalances lib updates l
             | none => none) = none := by
    cases hbs : (s.SelectAccountBalances st a).1.1 with
    | none => rfl
    | some l => exact (validateBalances_eq_none lib updates l).2 (hok l hbs)
  unfold UpdateAccount
  simp only [hsel, ne_eq, not_true_eq_false, if_false, hv]
  exact ⟨trivial, trivial, errorsWrap_eq_none _ _, trivial⟩

/-- P5 of the specification, run on the in-memory storage: account 1 in USD
without balances, and an update that proposes EUR; the update is written and the
stored account now carries EUR. -/
theorem UpdateAccount_valid_balances_delegate_witness :
    (UpdateAccount (specLib (fun _ => true)) memStorage
        ([{ ID := 1, Account := { Name := "A", Opened := 20200101, Closed := none,
                                  CurrencyCode := "USD" }, DeletedAt := none }], [])
        { ID := 1, Account := { Name := "A", Opened := 20200101, Closed := none,
                                CurrencyCode := "USD" }, DeletedAt := none }
        { Name := "A", Opened := 20200101, Closed := none, CurrencyCode := "EUR" }).account =
      some { ID := 1, Account := { Name := "A", Opened := 20200101, Closed := none,
                                   CurrencyCode := "EUR" }, DeletedAt := none } := by
  have h := (UpdateAccount_valid_balances_delegate (specLib (fun _ => true)) memStorage
    ([{ ID := 1, Account := { Name := "A", Opened := 20200101, Closed := none,
                              CurrencyCode := "USD" }, DeletedAt := none }], [])
    { ID := 1, Account := { Name := "A", Opened := 20200101, Closed := none,
                            CurrencyCode := "USD" }, DeletedAt := none }
    { Name := "A", Opened := 20200101, Closed := none, CurrencyCode := "EUR" }
    rfl (by intro bs hbs b hb; simp [memStorage] at hbs; subst hbs; simp at hb)).2.1
  rw [h]
  rfl

/-! ## `pkg/storage/postgres`: reading rows -/

/-- The accumulator of the scan loop is only ever appended to. -/
theorem scanLoop_acc (lib : Lib) (items : List (Except Error Row)) (acc : Accounts) :
    scanLoop lib items acc =
      match scanLoop lib items [] with
      | .error e => .error e
      | .ok as => .ok (acc ++ as) := by
  induction items generalizing acc with
  | nil => simp [scanLoop]
  | cons item items ih =>
    cases hrow : scanRow lib item with
    | error e => simp [scanLoop, hrow]
    | ok a =>
      simp only [scanLoop, hrow, List.nil_append]
      rw [ih (acc ++ [a]), ih [a]]
      cases scanLoop lib items [] <;> simp

/-- A scan loop that succeeds has mapped every row, in order. -/
theorem scanLoop_ok (lib : Lib) (items : List (Except Error Row)) (as : Accounts)
    (h : scanLoop lib items [] = .ok as) :
    List.Forall₂ (fun item a => scanRow lib item = .ok a) items as := by
  induction items generalizing as with
  | nil =>
    simp only [scanLoop, Except.ok.injEq] at h
    subst h
    exact List.Forall₂.nil
  | cons item items ih =>
    cases hrow : scanRow lib item with
    | error e => simp [scanLoop, hrow] at h
    | ok a =>
      simp only [scanLoop, hrow, List.nil_append] at h
      rw [scanLoop_acc] at h
      cases hrest : scanLoop lib items [] with
      | error e => simp [hrest] at h
      | ok rest =>
        simp only [hrest, Except.ok.injEq] at h
        subst h
        exact List.Forall₂.cons hrow (ih rest hrest)

/-- Rows that all map to accounts make the scan loop succeed with them. -/
theorem scanLoop_of_forall (lib : Lib) (items : List (Except Error Row)) (as : Accounts)
    (h : List.Forall₂ (fun item a => scanRow lib item = .ok a) items as) :
    scanLoop lib items [] = .ok as := by
  induction h with
  | nil => rfl
  | cons hrow _ ih =>
    simp only [scanLoop, hrow, List.nil_append]
    rw [scanLoop_acc, ih]
    rfl

/-- An error raised inside the scan loop is returned without any accounts. -/
theorem scanRowsForAccounts_loop_error (lib : Lib) (rows : Rows) (e : Error)
    (h : scanLoop lib rows.items [] = .error e) :
    scanRowsForAccounts lib rows = (none, some e) := by
  simp [scanRowsForAccounts, h]

/-- Rows that were all scanned are returned together with `rows.Err()`, whatever
it is. -/
theorem scanRowsForAccounts_loop_ok (lib : Lib) (rows : Rows) (as : Accounts)
    (h : scanLoop lib rows.items [] = .ok as) :
    scanRowsForAccounts lib rows = (some as, rows.err) := by
  simp [scanRowsForAccounts, h]

/-- `queryAccounts` never returns a nil pointer together with a nil error, so
`len(*as)` in `queryAccount` is always defined. -/
theorem queryAccounts_not_both_nil {σ : Type} (lib : Lib) (db : SqlDB σ) (st : σ)
    (q : QueryStmt) (h : (queryAccounts lib db st q).1.2 = none) :
    (queryAccounts lib db st q).1.1 ≠ none := by
  unfold queryAccounts at h ⊢
  cases hq : (db.Query st q).1 with
  | error e => simp [hq] at h
  | ok rows =>
    simp only [hq] at h ⊢
    unfold scanRowsForAccounts at h ⊢
    cases hl : scanLoop lib rows.items [] with
    | error e => simp [hl] at h
    | ok as => simp

theorem queryAccountOf_one (a : StorageAccount) :
    queryAccountOf (some [a], none) = (some a, none) := by
  simp [queryAccountOf]

theorem queryAccountOf_zero :
    queryAccountOf (some [], none) = (none, some "query returned no accounts") := by
  simp [queryAccountOf, errorsNew]

theorem queryAccountOf_many (as : Accounts) (h : 1 < as.length) :
    queryAccountOf (some as, none) =
      (none, some ("expected 1 account but query returned " ++ toString as.length)) := by
  have h0 : as.length ≠ 0 := by omega
  simp [queryAccountOf, h0, h]

theorem queryAccountOf_error (x : Option Accounts) (e : Error) :
    queryAccountOf (x, some e) = (none, some ("querying accounts: " ++ e)) := by
  simp [queryAccountOf, errorsWrap]

theorem queryAccounts_query_error {σ : Type} (lib : Lib) (db : SqlDB σ) (st : σ)
    (q : QueryStmt) (e : Error) (h : (db.Query st q).1 = .error e) :
    queryAccounts lib db st q = ((none, some e), (db.Query st q).2) := by
  simp [queryAccounts, h]

theorem queryAccounts_query_ok {σ : Type} (lib : Lib) (db : SqlDB σ) (st : σ)
    (q : QueryStmt) (rows : Rows) (h : (db.Query st q).1 = .ok rows) :
    queryAccounts lib db st q = (scanRowsForAccounts lib rows, (db.Query st q).2) := by
  simp [queryAccounts, h]

theorem queryAccounts_state {σ : Type} (lib : Lib) (db : SqlDB σ) (st : σ) (q : QueryStmt) :
    (queryAccounts lib db st q).2 = (db.Query st q).2 := by
  cases hq : (db.Query st q).1 with
  | error e => rw [queryAccounts_query_error lib db st q e hq]
  | ok rows => rw [queryAccounts_query_ok lib db st q rows hq]

/-- What `queryAccounts` returns, by the cases of the read. -/
theorem queryAccounts_cases {σ : Type} (lib : Lib) (db : SqlDB σ) (st : σ) (q : QueryStmt) :
    (∃ e, (db.Query st q).1 = .error e ∧ (queryAccounts lib db st q).1 = (none, some e)) ∨
    (∃ rows e, (db.Query st q).1 = .ok rows ∧ scanLoop lib rows.items [] = .error e ∧
      (queryAccounts lib db st q).1 = (none, some e)) ∨
    (∃ rows as, (db.Query st q).1 = .ok rows ∧ scanLoop lib rows.items [] = .ok as ∧
      (queryAccounts lib db st q).1 = (some as, rows.err)) := by
  cases hq : (db.Query st q).1 with
  | error e =>
    exact Or.inl ⟨e, rfl, by rw [queryAccounts_query_error lib db st q e hq]⟩
  | ok rows =>
    rw [queryAccounts_query_ok lib db st q rows hq]
    cases hl : scanLoop lib rows.items [] with
    | error e =>
      exact Or.inr (Or.inl ⟨rows, e, rfl, hl, scanRowsForAccounts_loop_error lib rows e hl⟩)
    | ok as =>
      exact Or.inr (Or.inr ⟨rows, as, rfl, hl, scanRowsForAccounts_loop_ok lib rows as hl⟩)

/-- The single-account lookup returns an account exactly for a nil error and a
list of one account. -/
theorem queryAccountOf_fst_eq_some (x : Option Accounts) (err : Option Error)
    (a : StorageAccount) :
    (queryAccountOf (x, err)).1 = some a ↔ err = none ∧ x.getD [] = [a] := by
  cases err with
  | some e => simp [queryAccountOf_error]
  | none =>
    unfold queryAccountOf
    rcases hx : x.getD [] with _ | ⟨b, _ | ⟨c, rest⟩⟩ <;> simp [hx, errorsNew]

/-- The single-account lookup returns either an account or an error, never both
and never neither. -/
theorem queryAccountOf_fst_eq_none (x : Option Accounts) (err : Option Error) :
    (queryAccountOf (x, err)).1 = none ↔ (queryAccountOf (x, err)).2 ≠ none := by
  cases err with
  | some e => simp [queryAccountOf_error]
  | none =>
    unfold queryAccountOf
    rcases hx : x.getD [] with _ | ⟨b, _ | ⟨c, rest⟩⟩ <;> simp [hx, errorsNew]

theorem forall₂_singleton_right {α β : Type} (R : α → β → Prop) (xs : List α) (b : β) :
    List.Forall₂ R xs [b] ↔ ∃ x, xs = [x] ∧ R x b := by
  constructor
  · intro h
    cases h with
    | cons hx hrest =>
      cases hrest
      exact ⟨_, rfl, hx⟩
  · rintro ⟨x, rfl, hx⟩
    exact List.Forall₂.cons hx List.Forall₂.nil

/-- A cursor without rows and without error makes the lookup fail with "query
returned no accounts". -/
theorem queryAccount_no_rows {σ : Type} (lib : Lib) (db : SqlDB σ) (st : σ) (q : QueryStmt)
    (rows : Rows) (hq : (db.Query st q).1 = .ok rows) (herr : rows.err = none)
    (hitems : rows.items = []) :
    (queryAccount lib db st q).1 = (none, some "query returned no accounts") := by
  have hl : scanLoop lib rows.items [] = .ok [] := by rw [hitems]; rfl
  show queryAccountOf (queryAccounts lib db st q).1 = _
  rw [queryAccounts_query_ok lib db st q rows hq, scanRowsForAccounts_loop_ok lib rows [] hl,
    herr]
  exact queryAccountOf_zero

/-- A cursor without error whose single row maps to an account makes the lookup
return that account. -/
theorem queryAccount_one_row {σ : Type} (lib : Lib) (db : SqlDB σ) (st : σ) (q : QueryStmt)
    (rows : Rows) (item : Except Error Row) (a : StorageAccount)
    (hq : (db.Query st q).1 = .ok rows) (herr : rows.err = none)
    (hitems : rows.items = [item]) (hrow : scanRow lib item = .ok a) :
    (queryAccount lib db st q).1 = (some a, none) := by
  have hl : scanLoop lib rows.items [] = .ok [a] := by
    rw [hitems]
    simp [scanLoop, hrow]
  show queryAccountOf (queryAccounts lib db st q).1 = _
  rw [queryAccounts_query_ok lib db st q rows hq, scanRowsForAccounts_loop_ok lib rows [a] hl,
    herr]
  exact queryAccountOf_one a

/-- C7: `queryAccount` returns an account if and only if the read returned a
cursor without error that held exactly one row and that row mapped to the
account; it then returns that row's account. With no rows the error is "query
returned no accounts" (not found), with more than one row it is "expected 1
account but query returned n" (ambiguous), and whenever an error is returned no
account is returned. -/
theorem queryAccount_exactly_one_row {σ : Type} (lib : Lib) (db : SqlDB σ) (st : σ)
    (q : QueryStmt) :
    (∀ a, (queryAccount lib db st q).1.1 = some a ↔
      ∃ rows item, (db.Query st q).1 = .ok rows ∧ rows.err = none ∧ rows.items = [item] ∧
        scanRow lib item = .ok a) ∧
    (∀ rows, (db.Query st q).1 = .ok rows → rows.err = none → rows.items = [] →
      (queryAccount lib db st q).1 = (none, some "query returned no accounts")) ∧
    (∀ rows as, (db.Query st q).1 = .ok rows → rows.err = none →
      scanLoop lib rows.items [] = .ok as → 1 < rows.items.length →
      (queryAccount lib db st q).1 =
        (none, some ("expected 1 account but query returned " ++
          toString rows.items.length))) ∧
    ((queryAccount lib db st q).1.2 ≠ none → (queryAccount lib db st q).1.1 = none) ∧
    ((queryAccount lib db st q).1.1 = none → (queryAccount lib db st q).1.2 ≠ none) := by
  have hdef : (queryAccount lib db st q).1 = queryAccountOf (queryAccounts lib db st q).1 := rfl
  rw [hdef]
  refine ⟨?_, ?_, ?_, ?_, ?_⟩
  · intro a
    rw [show (queryAccounts lib db st q).1 =
      ((queryAccounts lib db st q).1.1, (queryAccounts lib db st q).1.2) from rfl,
      queryAccountOf_fst_eq_some]
    rcases queryAccounts_cases lib db st q with ⟨e, hq, hr⟩ | ⟨rows, e, hq, hl, hr⟩ |
      ⟨rows, as, hq, hl, hr⟩
    · simp [hr, hq]
    · rw [hr]
      simp only [Option.some_ne_none, false_and, false_iff, not_exists, not_and]
        at *
      intro rows1 item h1 _ hitems hrow
      rw [hq] at h1
      cases h1
      rw [hitems] at hl
      simp [scanLoop, hrow] at hl
    · rw [hr]
      simp only [Option.getD_some]
      constructor
      · rintro ⟨herr, has⟩
        subst has
        obtain ⟨item, hitems, hrow⟩ :=
          (forall₂_singleton_right _ _ _).1 (scanLoop_ok lib rows.items _ hl)
        exact ⟨rows, item, hq, herr, hitems, hrow⟩
      · rintro ⟨rows1, item, h1, herr, hitems, hrow⟩
        rw [hq] at h1
        cases h1
        refine ⟨herr, ?_⟩
        have h2 : scanLoop lib rows.items [] = .ok [a] :=
          scanLoop_of_forall lib _ _ ((forall₂_singleton_right _ _ _).2 ⟨item, hitems, hrow⟩)
        rw [hl] at h2
        cases h2
        rfl
  · intro rows hq herr hitems
    exact queryAccount_no_rows lib db st q rows hq herr hitems
  · intro rows as hq herr hl hlen
    have hlen2 : as.length = rows.items.length := (scanLoop_ok lib rows.items as hl).length_eq.symm
    rw [queryAccounts_query_ok lib db st q rows hq, scanRowsForAccounts_loop_ok lib rows as hl,
      herr, ← hlen2]
    exact queryAccountOf_many as (by omega)
  · intro h
    exact (queryAccountOf_fst_eq_none _ _).2 h
  · intro h
    exact (queryAccountOf_fst_eq_none _ _).1 h

/-- A cursor without error holding the single row of account 1, read through a
store that returns it: the lookup returns that account. -/
theorem queryAccount_exactly_one_row_witness :
    (queryAccount (specLib (fun _ => true))
      ({ Query := fun st _ =>
           (.ok { items := [.ok { id := 1, name := "A", opened := 5, closed := none,
                                  currency := "USD", deleted := none }], err := none }, st)
         Exec := fun st _ => (.error "unused", st) } : SqlDB Unit) ()
      (.querySelectAccount 1)).1.1 =
    some { ID := 1, Account := { Name := "A", Opened := 5, Closed := none,
                                 CurrencyCode := "USD" }, DeletedAt := none } :=
  ((queryAccount_exactly_one_row (specLib (fun _ => true))
      ({ Query := fun st _ =>
           (.ok { items := [.ok { id := 1, name := "A", opened := 5, closed := none,
                                  currency := "USD", deleted := none }], err := none }, st)
         Exec := fun st _ => (.error "unused", st) } : SqlDB Unit) ()
      (.querySelectAccount 1)).1 _).2
    ⟨_, _, rfl, rfl, rfl, by rfl⟩

/-- C8, evaluated on the code: a cursor that yields the row of account 1 and then
stops with the iteration error "unexpected EOF". `scanRowsForAccounts` returns
the accounts scanned so far together with that error, and `SelectAccounts`
passes both on; the errors raised inside the loop return no accounts
(`scanRowsForAccounts_loop_error`). -/
theorem scanRowsForAccounts_partial_with_iteration_error :
    scanRowsForAccounts (specLib (fun _ => true))
      { items := [.ok { id := 1, name := "Checking", opened := 20210101, closed := none,
                        currency := "USD", deleted := none }],
        err := some "unexpected EOF" } =
      (some [{ ID := 1, Account := { Name := "Checking", Opened := 20210101, Closed := none,
                                     CurrencyCode := "USD" }, DeletedAt := none }],
       some "unexpected EOF") ∧
    (SelectAccounts (specLib (fun _ => true))
      ({ Query := fun st _ =>
           (.ok { items := [.ok { id := 1, name := "Checking", opened := 20210101,
                                  closed := none, currency := "USD", deleted := none }],
                  err := some "unexpected EOF" }, st)
         Exec := fun st _ => (.error "unused", st) } : SqlDB Unit) ()).1 =
      (some [{ ID := 1, Account := { Name := "Checking", Opened := 20210101, Closed := none,
                                     CurrencyCode := "USD" }, DeletedAt := none }],
       some "unexpected EOF") :=
  ⟨rfl, rfl⟩

/-! ## `pkg/storage/postgres`: deleting -/

theorem DeleteAccount_state {σ : Type} (db : SqlDB σ) (st : σ) (now : Time) (id : Nat) :
    (DeleteAccount db st now id).2 = (db.Exec st (.queryDeleteAccount now id)).2 := by
  cases hq : (db.Exec st (.queryDeleteAccount now id)).1 with
  | error e => simp [DeleteAccount, hq]
  | ok r =>
    cases h : r.RowsAffected with
    | error e => simp [DeleteAccount, hq, h]
    | ok n => by_cases h1 : n = 1 <;> simp [DeleteAccount, hq, h, h1]

/-- The error of `DeleteAccount` when the statement ran and reported `n` rows. -/
theorem DeleteAccount_rows {σ : Type} (db : SqlDB σ) (st : σ) (now : Time) (id : Nat)
    (r : Result) (n : Int) (hq : (db.Exec st (.queryDeleteAccount now id)).1 = .ok r)
    (hn : r.RowsAffected = .ok n) :
    (DeleteAccount db st now id).1 =
      if n ≠ 1 then some ("expected 1 affected row but got " ++ toString n) else none := by
  by_cases h1 : n = 1 <;> simp [DeleteAccount, hq, hn, h1]

/-- C6: `DeleteAccount` returns a nil error if and only if `db.Exec` returned a
result without error and `RowsAffected` reported exactly one row. With zero rows
affected it fails with "expected 1 affected row but got 0" (nothing to delete:
not found), with more than one with "expected 1 affected row but got n" (an
integrity failure). The store is left as `db.Exec` left it. -/
theorem DeleteAccount_success_iff_one_row {σ : Type} (db : SqlDB σ) (st : σ) (now : Time)
    (id : Nat) :
    ((DeleteAccount db st now id).1 = none ↔
      ∃ r, (db.Exec st (.queryDeleteAccount now id)).1 = .ok r ∧ r.RowsAffected = .ok 1) ∧
    (∀ r, (db.Exec st (.queryDeleteAccount now id)).1 = .ok r → r.RowsAffected = .ok 0 →
      (DeleteAccount db st now id).1 = some "expected 1 affected row but got 0") ∧
    (∀ r n, (db.Exec st (.queryDeleteAccount now id)).1 = .ok r → r.RowsAffected = .ok n →
      1 < n →
      (DeleteAccount db st now id).1 = some ("expected 1 affected row but got " ++ toString n)) ∧
    (DeleteAccount db st now id).2 = (db.Exec st (.queryDeleteAccount now id)).2 := by
  refine ⟨?_, ?_, ?_, DeleteAccount_state db st now id⟩
  · cases hq : (db.Exec st (.queryDeleteAccount now id)).1 with
    | error e => simp [DeleteAccount, hq, errorsWrap]
    | ok r =>
      cases hn : r.RowsAffected with
      | error e => simp [DeleteAccount, hq, errorsWrap, hn]
      | ok n =>
        rw [DeleteAccount_rows db st now id r n hq hn]
        by_cases h1 : n = 1
        · subst h1
          simp [hn]
        · simp only [ne_eq, h1, not_false_eq_true, if_true, reduceCtorEq, Except.ok.injEq,
            exists_eq_left', hn, false_iff]
  · intro r hq hn
    rw [DeleteAccount_rows db st now id r 0 hq hn]
    rfl
  · intro r n hq hn hlt
    rw [DeleteAccount_rows db st now id r n hq hn, if_pos (by omega)]

/-- Deleting identifier 9 from a table that holds only account 1 affects zero
rows and fails. -/
theorem DeleteAccount_success_iff_one_row_witness :
    (DeleteAccount tableDB
      { rows := [{ id := 1, name := "A", opened := 5, closed := none, currency := "USD",
                   deleted := none }], nextID := 2 } 77 9).1 =
      some "expected 1 affected row but got 0" :=
  (DeleteAccount_success_iff_one_row tableDB
      { rows := [{ id := 1, name := "A", opened := 5, closed := none, currency := "USD",
                   deleted := none }], nextID := 2 } 77 9).2.1 _ rfl rfl

/-! ## `pkg/storage/postgres` on the relational store -/

theorem mem_insertByID (r x : Row) (l : List Row) : x ∈ insertByID r l ↔ x = r ∨ x ∈ l := by
  induction l with
  | nil => simp [insertByID]
  | cons y ys ih =>
    unfold insertByID
    split
    · simp
    · simp only [List.mem_cons, ih]
      tauto

theorem mem_orderByID (x : Row) (l : List Row) : x ∈ orderByID l ↔ x ∈ l := by
  induction l with
  | nil => simp [orderByID]
  | cons y ys ih => simp [orderByID, mem_insertByID, ih]

/-- A row without deleted timestamp maps to an account that carries the row's
identifier. -/
theorem scanRow_ID (lib : Lib) (r : Row) (a : StorageAccount) (hdel : r.deleted = none)
    (h : scanRow lib (.ok r) = .ok a) : a.ID = r.id := by
  unfold scanRow at h
  simp only [hdel] at h
  split at h
  · cases h
  · split at h
    · cases h
    · split at h
      · cases h
      · cases h
        rfl

/-- The row of a valid account without deleted timestamp maps back to the
account. -/
theorem scanRow_rowOf (lib : Lib) (id : Nat) (a : Account) (hvalid : Rebuilds lib a) :
    scanRow lib (.ok (rowOf id a none)) =
      .ok { ID := id, Account := a, DeletedAt := none } := by
  obtain ⟨hcode, hnew, hclose⟩ := hvalid
  unfold scanRow rowOf
  simp only [hcode, hnew]
  cases hc : a.Closed with
  | none =>
    have ha : ({ a with Closed := none } : Account) = a := by
      cases a
      simp only [Account.mk.injEq, true_and, and_true]
      exact hc.symm
    simp only [ha]
  | some t =>
    simp only [hclose t hc]

theorem scanLoop_map_ok (lib : Lib) (rs : List Row) (as : Accounts)
    (h : scanLoop lib (rs.map Except.ok) [] = .ok as) :
    List.Forall₂ (fun r a => scanRow lib (.ok r) = .ok a) rs as := by
  have h1 := scanLoop_ok lib _ as h
  rw [List.forall₂_map_left_iff] at h1
  exact h1

/-- What `DeleteAccount` does on the relational store: it stamps every row with
the identifier, and succeeds exactly when there is one such row. -/
theorem DeleteAccount_tableDB (t : Table) (now : Time) (id : Nat) :
    ((DeleteAccount tableDB t now id).1 = none ↔
      (t.rows.filter (fun r => r.id == id)).length = 1) ∧
    (DeleteAccount tableDB t now id).2 =
      { rows := t.rows.map (markDeleted now id), nextID := t.nextID } := by
  refine ⟨?_, DeleteAccount_state tableDB t now id⟩
  rw [DeleteAccount_rows tableDB t now id _ _ rfl rfl]
  by_cases h1 : ((t.rows.filter (fun r => r.id == id)).length : Int) = 1
  · simp only [ne_eq, h1, not_true_eq_false, if_false, true_iff]
    exact_mod_cast h1
  · simp only [ne_eq, h1, not_false_eq_true, if_true, reduceCtorEq, false_iff]
    intro h
    exact h1 (by exact_mod_cast h)

/-- After the delete statement no row with the identifier is without a deleted
timestamp. -/
theorem filter_active_after_delete (rows : List Row) (now : Time) (id : Nat) :
    (rows.map (markDeleted now id)).filter (fun r => r.deleted.isNone && r.id == id) = [] := by
  rw [List.filter_eq_nil_iff]
  intro r hr
  obtain ⟨r0, _, rfl⟩ := List.mem_map.1 hr
  by_cases h : r0.id = id <;> simp [markDeleted, h]

/-- The accounts that `SelectAccounts` returns from the relational store are
those of rows without deleted timestamp. -/
theorem SelectAccounts_tableDB_mem (lib : Lib) (t : Table) (as : Accounts)
    (h : (SelectAccounts lib tableDB t).1.1 = some as) (a : StorageAccount) (ha : a ∈ as) :
    ∃ r ∈ t.rows, r.deleted = none ∧ a.ID = r.id := by
  have hq : (SelectAccounts lib tableDB t).1 =
      scanRowsForAccounts lib
        { items := (orderByID (t.rows.filter (fun r => r.deleted.isNone))).map Except.ok
          err := none } := by
    unfold SelectAccounts
    rw [queryAccounts_query_ok lib tableDB t .querySelectAccounts _ rfl]
  rw [hq] at h
  cases hl : scanLoop lib
      ((orderByID (t.rows.filter (fun r => r.deleted.isNone))).map Except.ok) [] with
  | error e =>
    rw [scanRowsForAccounts_loop_error lib _ e hl] at h
    cases h
  | ok openAccounts =>
    rw [scanRowsForAccounts_loop_ok lib _ _ hl] at h
    simp only [Option.some.injEq] at h
    subst h
    have hf := scanLoop_map_ok lib _ _ hl
    obtain ⟨i, hi⟩ := List.get_of_mem ha
    have hi2 : i.1 < (orderByID (t.rows.filter (fun r => r.deleted.isNone))).length := by
      rw [hf.length_eq]; exact i.2
    have hget := (List.forall₂_iff_get.1 hf).2 i.1 hi2 i.2
    have hr := List.get_mem (orderByID (t.rows.filter (fun r => r.deleted.isNone))) i.1 hi2
    rw [mem_orderByID, List.mem_filter] at hr
    have hdel : ((orderByID (t.rows.filter (fun r => r.deleted.isNone))).get ⟨i.1, hi2⟩).deleted
        = none := by simpa using hr.2
    refine ⟨_, hr.1, hdel, ?_⟩
    rw [← hi]
    exact scanRow_ID lib _ _ hdel hget

/-- C3: on the relational store, after `DeleteAccount(id)` has succeeded,
`SelectAccount(id)` fails with "query returned no accounts", no account with
that identifier is in a result of `SelectAccounts()`, and the table still holds
every row it held: a row with the identifier exists, and each such row is kept
with its name, opened, closed and currency columns and with the deleted
timestamp set to the time of the call. -/
theorem DeleteAccount_soft_deletes (lib : Lib) (t : Table) (now : Time) (id : Nat)
    (h : (DeleteAccount tableDB t now id).1 = none) :
    (SelectAccount lib tableDB (DeleteAccount tableDB t now id).2 id).1 =
      (none, some "querying Account: query returned no accounts") ∧
    (∀ as, (SelectAccounts lib tableDB (DeleteAccount tableDB t now id).2).1.1 = some as →
      ∀ a ∈ as, a.ID ≠ id) ∧
    (∃ r ∈ t.rows, r.id = id) ∧
    (∀ r ∈ t.rows, r.id = id →
      { r with deleted := some now } ∈ (DeleteAccount tableDB t now id).2.rows) ∧
    (DeleteAccount tableDB t now id).2.rows.length = t.rows.length := by
  obtain ⟨hiff, hstate⟩ := DeleteAccount_tableDB t now id
  have hlen := hiff.1 h
  rw [hstate]
  refine ⟨?_, ?_, ?_, ?_, ?_⟩
  · have hq := queryAccount_no_rows lib tableDB
      { rows := t.rows.map (markDeleted now id), nextID := t.nextID }
      (.querySelectAccount id) _ rfl rfl
      (by simp only [tableDB, filter_active_after_delete, List.map_nil])
    unfold SelectAccount
    simp only [hq, errorsWrap]
    rfl
  · intro as has a ha
    obtain ⟨r, hmem, hdel, hid⟩ := SelectAccounts_tableDB_mem lib _ as has a ha
    rw [hid]
    obtain ⟨r0, _, rfl⟩ := List.mem_map.1 hmem
    by_cases h0 : r0.id = id
    · simp [markDeleted, h0] at hdel
    · simp [markDeleted, h0]
  · have hne : t.rows.filter (fun r => r.id == id) ≠ [] := by
      intro h0
      rw [h0] at hlen
      cases hlen
    obtain ⟨r, hr⟩ := List.exists_mem_of_ne_nil _ hne
    rw [List.mem_filter] at hr
    exact ⟨r, hr.1, by simpa using hr.2⟩
  · intro r hr hid
    exact List.mem_map.2 ⟨r, hr, by simp [markDeleted, hid]⟩
  · simp

/-- Deleting account 1 from a table that holds accounts 1 and 2. -/
theorem DeleteAccount_soft_deletes_witness :
    (SelectAccount (specLib (fun _ => true)) tableDB
      (DeleteAccount tableDB
        { rows := [{ id := 1, name := "A", opened := 5, closed := none, currency := "USD",
                     deleted := none },
                   { id := 2, name := "B", opened := 6, closed := some 9, currency := "EUR",
                     deleted := none }], nextID := 3 } 77 1).2 1).1 =
      (none, some "querying Account: query returned no accounts") :=
  (DeleteAccount_soft_deletes (specLib (fun _ => true))
      { rows := [{ id := 1, name := "A", opened := 5, closed := none, currency := "USD",
                   deleted := none },
                 { id := 2, name := "B", opened := 6, closed := some 9, currency := "EUR",
                   deleted := none }], nextID := 3 } 77 1 rfl).1

/-- `DeleteAccount` on an identifier that no row carries fails: zero rows are
affected. -/
theorem DeleteAccount_no_row_fails (t : Table) (now : Time) (id : Nat)
    (h : ∀ r ∈ t.rows, r.id ≠ id) :
    (DeleteAccount tableDB t now id).1 = some "expected 1 affected row but got 0" := by
  have h0 : t.rows.filter (fun r => r.id == id) = [] := by
    rw [List.filter_eq_nil_iff]
    intro r hr
    simpa using h r hr
  rw [DeleteAccount_rows tableDB t now id _ _ rfl rfl]
  simp only [h0, List.length_nil]
  rfl

/-- C4, evaluated on the code: the delete statement selects rows by `id` alone,
so on a table holding account 1 a first `DeleteAccount(1)` at time 100 succeeds,
a second `DeleteAccount(1)` at time 200 succeeds too, and it overwrites the
deleted timestamp of the row. Only the identifier without any row fails
(`DeleteAccount_no_row_fails`). -/
theorem DeleteAccount_succeeds_twice :
    (DeleteAccount tableDB
      { rows := [{ id := 1, name := "A", opened := 5, closed := none, currency := "USD",
                   deleted := none }], nextID := 2 } 100 1) =
      (none, { rows := [{ id := 1, name := "A", opened := 5, closed := none,
                          currency := "USD", deleted := some 100 }], nextID := 2 }) ∧
    (DeleteAccount tableDB
      { rows := [{ id := 1, name := "A", opened := 5, closed := none, currency := "USD",
                   deleted := some 100 }], nextID := 2 } 200 1) =
      (none, { rows := [{ id := 1, name := "A", opened := 5, closed := none,
                          currency := "USD", deleted := some 200 }], nextID := 2 }) :=
  ⟨rfl, rfl⟩

/-- An insert into the relational store keeps the identifiers fresh. -/
theorem Fresh_insert (t : Table) (name : String) (opened : Time) (closed : Option Time)
    (code : String) (h : t.Fresh) :
    (tableDB.Query t (.queryInsertAccount name opened closed code)).2.Fresh := by
  intro r hr
  simp only [tableDB, List.mem_append, List.mem_singleton] at hr ⊢
  rcases hr with hr | rfl
  · exact Nat.lt_succ_of_lt (h r hr)
  · exact Nat.lt_succ_self _

/-- The delete statement keeps the identifiers fresh. -/
theorem Fresh_delete (t : Table) (now : Time) (id : Nat) (h : t.Fresh) :
    (DeleteAccount tableDB t now id).2.Fresh := by
  rw [(DeleteAccount_tableDB t now id).2]
  intro r hr
  obtain ⟨r0, hr0, rfl⟩ := List.mem_map.1 hr
  have := h r0 hr0
  by_cases hid : r0.id = id <;> simpa [markDeleted, hid] using this

/-- The empty table is fresh. -/
theorem Fresh_empty (n : Nat) : ({ rows := [], nextID := n } : Table).Fresh := by
  intro r hr
  cases hr

/-- C5: on the relational store with fresh identifiers, for every account `a`
that is valid for the libraries, with or without a closed timestamp,
`InsertAccount(a)` succeeds and returns the stored account with the new
identifier, the fields of `a` and no deleted timestamp, and `SelectAccount` of
that identifier on the resulting store succeeds and returns the same stored
account. -/
theorem InsertAccount_SelectAccount_roundtrip (lib : Lib) (t : Table) (a : Account)
    (hfresh : t.Fresh) (hvalid : Rebuilds lib a) :
    (InsertAccount lib tableDB t a).1 =
      (some { ID := t.nextID, Account := a, DeletedAt := none }, none) ∧
    (SelectAccount lib tableDB (InsertAccount lib tableDB t a).2 t.nextID).1 =
      (some { ID := t.nextID, Account := a, DeletedAt := none }, none) := by
  have hrow := scanRow_rowOf lib t.nextID a hvalid
  have hins : (queryAccount lib tableDB t
      (.queryInsertAccount a.Name a.Opened a.Closed a.CurrencyCode)).1 =
      (some { ID := t.nextID, Account := a, DeletedAt := none }, none) :=
    queryAccount_one_row lib tableDB t _ _ (.ok (rowOf t.nextID a none)) _ rfl rfl rfl hrow
  have hstate : (InsertAccount lib tableDB t a).2 =
      { rows := t.rows ++ [rowOf t.nextID a none], nextID := t.nextID + 1 } := by
    unfold InsertAccount queryAccount
    simp only [queryAccounts_state]
    rfl
  refine ⟨?_, ?_⟩
  · unfold InsertAccount
    simp only [hins, errorsWrap]
  · rw [hstate]
    have hfilter : (t.rows ++ [rowOf t.nextID a none]).filter
        (fun r => r.deleted.isNone && r.id == t.nextID) = [rowOf t.nextID a none] := by
      rw [List.filter_append]
      have h0 : t.rows.filter (fun r => r.deleted.isNone && r.id == t.nextID) = [] := by
        rw [List.filter_eq_nil_iff]
        intro r hr
        have := hfresh r hr
        simp only [Bool.and_eq_true, beq_iff_eq, not_and]
        intro _
        omega
      rw [h0]
      simp [rowOf]
    have hsel : (queryAccount lib tableDB
        { rows := t.rows ++ [rowOf t.nextID a none], nextID := t.nextID + 1 }
        (.querySelectAccount t.nextID)).1 =
        (some { ID := t.nextID, Account := a, DeletedAt := none }, none) :=
      queryAccount_one_row lib tableDB _ _ _ (.ok (rowOf t.nextID a none)) _ rfl rfl
        (by simp only [tableDB, hfilter, List.map_cons, List.map_nil]) hrow
    unfold SelectAccount
    simp only [hsel, errorsWrap]

/-- The accounts that satisfy the invariant of the specification are valid for
the libraries as the specification describes them. -/
theorem specLib_rebuilds (recognised : String → Bool) (a : Account) (hname : a.Name ≠ "")
    (hcode : a.CurrencyCode.length = 3) (hrec : recognised a.CurrencyCode = true)
    (hclosed : ∀ t, a.Closed = some t → a.Opened ≤ t) :
    Rebuilds (specLib recognised) a := by
  refine ⟨?_, ?_, ?_⟩
  · simp [specLib, hcode, hrec]
  · simp [specLib, hname]
  · intro t ht
    have hnot : ¬ t < a.Opened := not_lt.2 (hclosed t ht)
    cases a
    simp only at ht hnot
    simp [specLib, ht, hnot]

/-- The round trip of an account with a closed timestamp through a table that
already holds account 1. -/
theorem InsertAccount_SelectAccount_roundtrip_witness :
    (SelectAccount (specLib (fun _ => true)) tableDB
      (InsertAccount (specLib (fun _ => true)) tableDB
        { rows := [{ id := 1, name := "A", opened := 5, closed := none, currency := "USD",
                     deleted := none }], nextID := 2 }
        { Name := "Checking", Opened := 20210101, Closed := some 20210301,
          CurrencyCode := "USD" }).2 2).1 =
      (some { ID := 2, Account := { Name := "Checking", Opened := 20210101,
                                    Closed := some 20210301, CurrencyCode := "USD" },
              DeletedAt := none }, none) :=
  (InsertAccount_SelectAccount_roundtrip (specLib (fun _ => true))
    { rows := [{ id := 1, name := "A", opened := 5, closed := none, currency := "USD",
                 deleted := none }], nextID := 2 }
    { Name := "Checking", Opened := 20210101, Closed := some 20210301, CurrencyCode := "USD" }
    (by intro r hr; simp only [List.mem_singleton] at hr; subst hr; decide)
    (specLib_rebuilds _ _ (by decide) (by decide) rfl
      (by intro t ht; cases ht; decide))).2

/-! ## `client`: theorems -/

/-- C9: `getBodyFromEndpoint` returns a nil body and an error in both failure
cases. When the GET request fails, the message contains "getting from endpoint";
when the status code is not 200, it contains "server returned unexpected code"
followed by the code. A body is returned only when the request succeeded with
status 200. -/
theorem getBodyFromEndpoint_failures :
    (∀ e : Error, ∃ msg, getBodyFromEndpoint (.error e) = (none, some msg) ∧
      Contains msg "getting from endpoint") ∧
    (∀ res : Response, res.StatusCode ≠ 200 →
      ∃ msg, getBodyFromEndpoint (.ok res) = (none, some msg) ∧
        Contains msg ("server returned unexpected code " ++ toString res.StatusCode)) ∧
    (∀ get body, (getBodyFromEndpoint get).1 = some body →
      ∃ res, get = .ok res ∧ res.StatusCode = 200) := by
  refine ⟨?_, ?_, ?_⟩
  · intro e
    exact ⟨_, rfl, contains_append_assoc _ _ _⟩
  · intro res hres
    refine ⟨"server returned unexpected code " ++ toString res.StatusCode ++
      " (" ++ res.Status ++ ")", ?_, ?_⟩
    · show processRequestForBody res = _
      unfold processRequestForBody
      rw [if_pos (by simpa [StatusOK] using hres)]
    · rw [String.append_assoc, String.append_assoc]
      exact contains_append_right _ _
  · intro get body h
    cases get with
    | error e => simp [getBodyFromEndpoint, errorsWrap] at h
    | ok res =>
      refine ⟨res, rfl, ?_⟩
      by_contra hne
      simp [getBodyFromEndpoint, processRequestForBody, StatusOK, hne] at h

/-- The second case of `Test_getBodyFromEndpoint`: a server answering 418. -/
theorem getBodyFromEndpoint_failures_witness :
    ∃ msg, getBodyFromEndpoint
        (.ok { StatusCode := 418, Status := "418 I'm a teapot", Body := ([], none) }) =
        (none, some msg) ∧
      Contains msg ("server returned unexpected code " ++ toString (418 : Int)) :=
  getBodyFromEndpoint_failures.2.1
    { StatusCode := 418, Status := "418 I'm a teapot", Body := ([], none) } (by decide)

/-! ## `cmd/monserve`: theorems -/

/-- `newServer` does what its comment says: TLS with the two paths if either is
non-empty, plain HTTP if both are empty. -/
theorem newServer_documented (certPath keyPath addr : String) :
    (certPath ≠ "" ∨ keyPath ≠ "" →
      newServer certPath keyPath addr = .ListenAndServeTLS addr certPath keyPath) ∧
    (certPath = "" ∧ keyPath = "" → newServer certPath keyPath addr = .ListenAndServe addr) := by
  have hlen : ∀ s : String, s.length = 0 ↔ s = "" := fun s => by
    rw [String.length, List.length_eq_zero]
    constructor
    · intro h
      exact String.ext h
    · intro h
      rw [h]
  unfold newServer
  constructor
  · intro h
    rw [if_neg]
    rw [hlen, hlen]
    tauto
  · rintro ⟨h1, h2⟩
    rw [if_pos]
    rw [hlen, hlen]
    exact ⟨h1, h2⟩

/-- C10, evaluated on the code: with `ssl-certificate` set to "cert.pem" and
`ssl-key` set to "key.pem" the command starts a plain HTTP server on the
configured port, because `cmdDBServe` calls `newServer("", "")` and reads
neither setting. -/
theorem cmdDBServe_ignores_ssl_settings :
    cmdDBServe (fun _ _ _ _ _ => (Except.ok () : Except Error Unit))
      (fun _ => (Except.ok () : Except Error Unit))
      { port := "443", sslCertificate := "cert.pem", sslKey := "key.pem", dbHost := "h",
        dbUser := "u", dbPassword := "p", dbName := "n", dbSSLMode := "disable" } =
      .ok (.ListenAndServe ":443") ∧
    newServer "cert.pem" "key.pem" ":443" = .ListenAndServeTLS ":443" "cert.pem" "key.pem" :=
  ⟨rfl, rfl⟩

end Mon
